import Mathlib

/-!
Verification development for the minidb storage engine.

Each Go value type is embedded shallowly: machine integers become `Nat`
(with explicit wrap-around only where the code's behaviour depends on it),
byte slices become `List Nat`, Go maps become association lists or
predicate lists, and fallible operations return `Option`.  Every
definition mirrors the corresponding function in the repository; the doc
comment of each definition names its source.
-/

namespace MiniDB

/-- Reserved transaction id (`types.InvalidTxnID = 0`). -/
def invalidTxnID : Nat := 0

/-- Largest 64-bit transaction id (`types.MaxTxnID = ^uint64(0)`). -/
def maxTxnID : Nat := 2 ^ 64 - 1

/-- Sentinel page id (`types.InvalidPageID = 0xFFFFFFFF`). -/
def invalidPageID : Nat := 0xFFFFFFFF

/-- Invalid log sequence number (`types.InvalidLSN = 0`). -/
def invalidLSN : Nat := 0

/-- Embedding of `types.Tuple` (pkg/types/types.go): the MVCC tuple header
plus its row payload bytes. -/
structure Tuple where
  xmin : Nat
  xmax : Nat
  cid : Nat
  tableID : Nat
  rowID : Nat
  data : List Nat
deriving DecidableEq

/-- Embedding of `txn.Snapshot` (internal/txn/mvcc.go).  The Go field
`ActiveTxns map[types.TxnID]bool` is modelled by the list of ids the map
sends to `true`. -/
structure Snapshot where
  xmin : Nat
  xmax : Nat
  activeTxns : List Nat
deriving DecidableEq

/-- Embedding of `Snapshot.isTxnVisible` (internal/txn/mvcc.go): the
if-chain of the source, in source order. -/
def Snapshot.isTxnVisible (s : Snapshot) (txnID : Nat) : Bool :=
  if txnID = invalidTxnID then false
  else if txnID ≥ s.xmax then false
  else if s.activeTxns.contains txnID then false
  else true

/-- Embedding of `Snapshot.IsVisible` (internal/txn/mvcc.go). -/
def Snapshot.isVisible (s : Snapshot) (t : Tuple) : Bool :=
  if ¬ s.isTxnVisible t.xmin then false
  else if t.xmax = invalidTxnID then true
  else if s.isTxnVisible t.xmax then false
  else true

/-- Embedding of `txn.Transaction` (the fields the claims need). -/
structure Txn where
  id : Nat
  snapshot : Snapshot
  commandID : Nat
deriving DecidableEq

/-- Embedding of `txn.Manager`'s id counter and active set
(src/unnamed/part_006). -/
structure Manager where
  nextTxnID : Nat
  activeTxns : List Nat
deriving DecidableEq

/-- Embedding of `Manager.createSnapshotLocked` (src/unnamed/part_006):
`Xmax` is the value read from the id counter, `Xmin` the minimum of the
running ids (falling back to `Xmax` when none are running). -/
def Manager.createSnapshotLocked (m : Manager) : Snapshot :=
  let xmax := m.nextTxnID
  let xmin0 := m.activeTxns.foldl (fun acc t => if t < acc then t else acc) maxTxnID
  let xmin := if xmin0 = maxTxnID then xmax else xmin0
  { xmin := xmin, xmax := xmax, activeTxns := m.activeTxns }

/-- Embedding of `Manager.Begin` (src/unnamed/part_006).  Go's
`atomic.AddUint64(&m.nextTxnID, 1)` returns the incremented value, so the
new transaction's id is the counter's post-increment value; the snapshot
is captured after the increment and before the transaction is installed
in the active set. -/
def Manager.begin (m : Manager) : Txn × Manager :=
  let txnID := m.nextTxnID + 1
  let m1 : Manager := { m with nextTxnID := txnID }
  let snap := m1.createSnapshotLocked
  let t : Txn := { id := txnID, snapshot := snap, commandID := 0 }
  (t, { m1 with activeTxns := txnID :: m1.activeTxns })

/-- Serialized length of a tuple: `Tuple.Serialize` (pkg/types/types.go)
produces a 36-byte header followed by the data bytes. -/
def Tuple.serializedSize (t : Tuple) : Nat := 36 + t.data.length

/-- Tuple-level view of a data page for the table-heap layer
(internal/storage/page.go): `slots` is the slot directory (`none` = a
tombstoned/length-0 slot), and `freeOfs`/`freeEnd`/`nextPageID`/`lsn`
mirror the page-header fields `FreeSpaceOffset`/`FreeSpaceEnd`/
`NextPageID`/`LSN`. -/
structure HPage where
  id : Nat
  slots : List (Option Tuple)
  freeOfs : Nat
  freeEnd : Nat
  nextPageID : Nat
  lsn : Nat
deriving DecidableEq

/-- Fresh page as produced by `NewPage`/`init` (internal/storage/page.go):
no slots, free space from the 28-byte header to the page end, and
`NextPageID = InvalidPageID`. -/
def HPage.fresh (id : Nat) : HPage :=
  { id := id, slots := [], freeOfs := 28, freeEnd := 4096,
    nextPageID := invalidPageID, lsn := 0 }

/-- Embedding of `Page.FreeSpace` (internal/storage/page.go):
`free-end − free-begin − slotSize` in Go `int` arithmetic. -/
def HPage.freeSpace (p : HPage) : Int := (p.freeEnd : Int) - p.freeOfs - 4

/-- Tuple-level embedding of `Page.InsertTuple` (internal/storage/page.go)
as used through `TableHeap`: PageFull when `FreeSpace() < len(data)`,
otherwise a slot is appended and `FreeSpaceEnd` moves back by the
serialized tuple length.  (The byte-exact embedding of the same function,
including the slot-directory bytes, is `BPage.insertTuple` below.) -/
def HPage.insertTuple (p : HPage) (t : Tuple) : Option (Nat × HPage) :=
  if p.freeSpace < (t.serializedSize : Int) then none
  else some (p.slots.length,
    { p with slots := p.slots ++ [some t],
             freeEnd := p.freeEnd - t.serializedSize })

/-- Tuple-level embedding of `Page.GetTuple` via `TableHeap.Get`:
out-of-range and tombstoned slots yield nothing. -/
def HPage.getTupleAt (p : HPage) (s : Nat) : Option Tuple :=
  (p.slots[s]?).getD none

/-- Tuple-level embedding of `Page.DeleteTuple` (internal/storage/page.go):
set the slot's length to 0 (tombstone) without moving any payload. -/
def HPage.deleteTuple (p : HPage) (s : Nat) : Option HPage :=
  if s ≥ p.slots.length then none
  else some { p with slots := p.slots.set s none }

/-- Page store backing the heap layer: the pages currently allocated and
the disk manager's allocation counter (`AllocatePage` hands out
consecutive ids; spec §4.1 and the disk-manager tests). -/
structure Store where
  pages : List HPage
  numPages : Nat
deriving DecidableEq

/-- Lookup of a page by id (buffer-pool `FetchPage` at the heap layer). -/
def Store.find (st : Store) (pid : Nat) : Option HPage :=
  st.pages.find? (fun p => p.id = pid)

/-- Write a (mutated) page back into the store. -/
def Store.put (st : Store) (pg : HPage) : Store :=
  { st with pages := st.pages.map (fun q => if q.id = pg.id then pg else q) }

/-- Embedding of `storage.TableHeap` (internal/storage/heap.go). -/
structure THeap where
  tableID : Nat
  firstPage : Nat
  lastPage : Nat
deriving DecidableEq

/-- Embedding of `TableHeap.Insert` (internal/storage/heap.go lines
57–92): try the last page; on PageFull allocate a fresh page through the
buffer pool and advance `lastPage`, then retry.  Faithful to the source,
the previous last page's `NextPageID` header field is not written (the
code only tracks first/last).  Returns (store, heap, page-id, slot). -/
def THeap.insert (st : Store) (th : THeap) (t : Tuple) :
    Option (Store × THeap × Nat × Nat) :=
  match st.find th.lastPage with
  | none => none
  | some pg =>
    match pg.insertTuple t with
    | some (s, pg') => some (st.put pg', th, pg.id, s)
    | none =>
      let npg := HPage.fresh st.numPages
      let st1 : Store := { pages := st.pages ++ [npg], numPages := st.numPages + 1 }
      let th' : THeap := { th with lastPage := npg.id }
      match npg.insertTuple t with
      | some (s, npg') => some (st1.put npg', th', npg.id, s)
      | none => none

/-- Embedding of `TableHeap.Delete` (internal/storage/heap.go):
tombstone a slot of the addressed page. -/
def THeap.deleteAt (st : Store) (pid s : Nat) : Option Store :=
  match st.find pid with
  | none => none
  | some pg =>
    match pg.deleteTuple s with
    | none => none
    | some pg' => some (st.put pg')

/-- Embedding of the per-tuple heap mutation performed by
`Executor.executeUpdate` (internal/sql/executor.go lines 320–378) on a
visible tuple that passed the WHERE filter: the scanned in-memory copy's
`XMax` is set to the writer's id, and a brand-new version with
`xmin` = writer, `xmax` = 0 and the updated row data is inserted through
`TableHeap.Insert`.  Faithful to the source, the old version is not
written back to its (page, slot): this code path has no `heap.Update`
call (contrast `executeDelete`, executor.go line 436), so only the
in-memory scan copy `scanCopy` ever carries the new `xmax`. -/
def executeUpdateStep (st : Store) (th : THeap) (old : Tuple)
    (writer cid : Nat) (newData : List Nat) :
    Option (Store × THeap × Nat × Nat) :=
  let scanCopy : Tuple := { old with xmax := writer }
  let newTuple : Tuple :=
    { xmin := writer, xmax := invalidTxnID, cid := cid,
      tableID := scanCopy.tableID, rowID := scanCopy.rowID, data := newData }
  THeap.insert st th newTuple

/-- Transaction-manager state consulted by vacuum.  `activeTxns` is the
active set of the embedded `txn.Manager`; the `committedTxns` field is
Modelled from the spec: the known-committed set of spec §4.7 (exercised
by `TestIsTxnCommitted` in src/unnamed/part_005) whose implementation is
absent from the sources. -/
structure VMgr where
  activeTxns : List Nat
  committedTxns : List Nat
deriving DecidableEq

/-- Embedding of `Manager.updateGlobalXmin`/`GetGlobalXmin`
(src/unnamed/part_006): minimum running id, `MaxTxnID` when none run. -/
def VMgr.globalXmin (m : VMgr) : Nat :=
  m.activeTxns.foldl (fun acc t => if t < acc then t else acc) maxTxnID

/-- Modelled from the spec: `Manager.IsTxnCommitted` consults the
known-committed set (spec §4.7; test `TestIsTxnCommitted`). -/
def VMgr.isTxnCommitted (m : VMgr) (t : Nat) : Bool :=
  m.committedTxns.contains t

/-- Embedding of `Manager.Commit` (src/unnamed/part_006) restricted to
the vacuum-relevant state, extended — Modelled from the spec §4.7 — with
recording the TxnID in the known-committed set. -/
def VMgr.commit (m : VMgr) (txnID : Nat) : VMgr :=
  { activeTxns := m.activeTxns.filter (fun x => x != txnID),
    committedTxns := txnID :: m.committedTxns }

/-- Embedding of `Manager.Rollback` (src/unnamed/part_006) restricted to
the vacuum-relevant state: the transaction leaves the active set and is
never recorded as committed. -/
def VMgr.rollback (m : VMgr) (txnID : Nat) : VMgr :=
  { m with activeTxns := m.activeTxns.filter (fun x => x != txnID) }

/-- Embedding of the dead-tuple test of `Engine.Vacuum`
(src/internal/storage/disk_test.go lines 760–772): `XMax` set, below the
global xmin, and the `XMax` transaction known committed. -/
def VMgr.reclaimable (m : VMgr) (t : Tuple) : Bool :=
  (t.xmax != invalidTxnID) && decide (t.xmax < m.globalXmin)
    && m.isTxnCommitted t.xmax

/-- Embedding of the vacuum scan-and-delete loop of `Engine.Vacuum` over
one heap page: every scanned live tuple passing the dead-tuple test is
physically tombstoned via the slotted-page delete (`heap.Delete` →
`Page.DeleteTuple`). -/
def VMgr.vacuumPage (m : VMgr) (pg : HPage) : HPage :=
  { pg with slots := pg.slots.map (fun s =>
      match s with
      | some t => if m.reclaimable t then none else some t
      | none => none) }

/-- Buffer-pool page metadata (`storage.Page` fields `LSN`, `IsDirty`,
`PinCount`) for the WAL-rule claim. -/
structure CachedPage where
  id : Nat
  lsn : Nat
  dirty : Bool
  pinCount : Nat
deriving DecidableEq

/-- Combined state for the WAL rule: the WAL writer's flushed-LSN, the
buffer-pool cache in LRU order (front = most recently used), and the
sequence of (page-id, page-LSN) pairs written to the data file. -/
structure WalSys where
  flushedLSN : Nat
  cache : List CachedPage
  diskWrites : List (Nat × Nat)
deriving DecidableEq

/-- Embedding of `BufferPool.FlushPage` (internal/storage/buffer.go lines
120–137): look the page up; when dirty, write it to disk and clear the
flag.  Faithful to the source, nothing reads or forces the WAL, so
`flushedLSN` is untouched. -/
def WalSys.flushPage (s : WalSys) (pid : Nat) : WalSys :=
  match s.cache.find? (fun p => p.id = pid) with
  | none => s
  | some pg =>
    if pg.dirty then
      { s with
        diskWrites := s.diskWrites ++ [(pg.id, pg.lsn)],
        cache := s.cache.map (fun q =>
          if q.id = pid then { q with dirty := false } else q) }
    else s

/-- Embedding of `BufferPool.evictOne` (internal/storage/buffer.go lines
158–182): scan the LRU list from the tail for the first unpinned page;
write it to disk if dirty; drop it from the cache.  No WAL interaction. -/
def WalSys.evictOne (s : WalSys) : Option WalSys :=
  match s.cache.reverse.find? (fun p => p.pinCount = 0) with
  | none => none
  | some victim =>
    let s1 : WalSys :=
      if victim.dirty then
        { s with diskWrites := s.diskWrites ++ [(victim.id, victim.lsn)] }
      else s
    some { s1 with cache := s1.cache.filter (fun q => q.id != victim.id) }

/-- Little-endian 16-bit store (`binary.LittleEndian.PutUint16`) into a
byte map. -/
def writeLE16 (d : Nat → Nat) (pos v : Nat) : Nat → Nat :=
  fun i => if i = pos then v % 256
    else if i = pos + 1 then v / 256 % 256
    else d i

/-- Little-endian 16-bit load (`binary.LittleEndian.Uint16`). -/
def readLE16 (d : Nat → Nat) (pos : Nat) : Nat :=
  d pos + 256 * d (pos + 1)

/-- Byte copy `copy(dst[pos:pos+len(src)], src)` into a byte map. -/
def copyBytes (d : Nat → Nat) (pos : Nat) (src : List Nat) : Nat → Nat :=
  fun i => if pos ≤ i ∧ i < pos + src.length then src.getD (i - pos) 0 else d i

/-- Byte-exact embedding of the slotted page `storage.Page`
(internal/storage/page.go).  The header scalars `SlotCount`,
`FreeSpaceOffset` and `FreeSpaceEnd` live at data offsets 16–21 in the
source and are only ever accessed through their accessors, so they are
carried as fields; `data` is the byte image of the page, on which the
slot directory (at the page tail, slot `n` at offset `4096 − 4·(n+1)`)
and the tuple payloads are materialized exactly as the source does. -/
structure BPage where
  slotCount : Nat
  freeOfs : Nat
  freeEnd : Nat
  data : Nat → Nat

/-- Fresh page per `NewPage`/`init` (internal/storage/page.go): zeroed
bytes, no slots, free space from offset 28 to 4096. -/
def BPage.empty : BPage :=
  { slotCount := 0, freeOfs := 28, freeEnd := 4096, data := fun _ => 0 }

/-- Embedding of `Page.setSlot` (page.go lines 143–147). -/
def BPage.setSlot (p : BPage) (slotNum ofs len : Nat) : BPage :=
  let slotPos := 4096 - (slotNum + 1) * 4
  { p with data := writeLE16 (writeLE16 p.data slotPos ofs) (slotPos + 2) len }

/-- Embedding of `Page.getSlot` (page.go lines 135–140). -/
def BPage.getSlot (p : BPage) (slotNum : Nat) : Nat × Nat :=
  let slotPos := 4096 - (slotNum + 1) * 4
  (readLE16 p.data slotPos, readLE16 p.data (slotPos + 2))

/-- Embedding of `Page.FreeSpace` (page.go lines 150–155). -/
def BPage.freeSpace (p : BPage) : Int := (p.freeEnd : Int) - p.freeOfs - 4

/-- Byte-exact embedding of `Page.InsertTuple` (page.go lines 159–182):
guard on `FreeSpace() < len(data)`, move `FreeSpaceEnd` back, copy the
payload there, then write the slot entry and bump the slot count. -/
def BPage.insertTuple (p : BPage) (src : List Nat) : Option (Nat × BPage) :=
  if p.freeSpace < (src.length : Int) then none
  else
    let newEnd := p.freeEnd - src.length
    let p1 : BPage := { p with freeEnd := newEnd, data := copyBytes p.data newEnd src }
    let p2 := p1.setSlot p.slotCount newEnd src.length
    some (p.slotCount, { p2 with slotCount := p.slotCount + 1 })

/-- Byte-exact embedding of `Page.GetTuple` (page.go lines 185–198). -/
def BPage.getTuple (p : BPage) (slotNum : Nat) : Option (List Nat) :=
  if slotNum ≥ p.slotCount then none
  else
    let sl := p.getSlot slotNum
    if sl.2 = 0 then none
    else some ((List.range sl.2).map (fun k => p.data (sl.1 + k)))

/-- Log-record kinds (`types.LogRecordType`). -/
inductive LogKind where
  | begin
  | commit
  | abort
  | update
  | insert
  | delete
  | checkpoint
  | clr
deriving DecidableEq

/-- Embedding of `wal.LogRecord`, restricted to the fields the redo phase
consults. -/
structure LogRec where
  kind : LogKind
  lsn : Nat
  txnID : Nat
  pageID : Nat
  slotNum : Nat
  rowID : Nat
deriving DecidableEq

/-- Data-mutating record test of `redoPhase` (internal/wal/recovery.go
lines 213–217): Update, Insert, Delete or CLR. -/
def LogRec.isDataRec (r : LogRec) : Bool :=
  match r.kind with
  | .update => true
  | .insert => true
  | .delete => true
  | .clr => true
  | _ => false

/-- Embedding of the minimum-RecLSN computation of `redoPhase`
(recovery.go lines 184–190): fold over the DPT values starting from the
largest uint64. -/
def minRecLSN (dpt : List (Nat × Nat)) : Nat :=
  dpt.foldl (fun acc e => if e.2 < acc then e.2 else acc) (2 ^ 64 - 1)

/-- Dirty-page-table lookup (`rm.dirtyPageTable[record.PageID]`): the DPT
map is modelled as an association list of (page-id, RecLSN). -/
def dptLookup (dpt : List (Nat × Nat)) (pid : Nat) : Option Nat :=
  match dpt.find? (fun e => e.1 = pid) with
  | none => none
  | some e => some e.2

/-- Embedding of the per-record skip chain of `redoPhase` (recovery.go
lines 207–246) with the engine's callbacks installed (`Engine.recover`
sets both): skip when the LSN is below the scan start, when the record is
not data-mutating, when its page is not in the DPT, when its LSN is below
the page's RecLSN, or when the current page-LSN (the `pageLSNCallback`
view `σ`) is already ≥ the record's LSN; otherwise invoke the redo
callback. -/
def redoDecision (dpt : List (Nat × Nat)) (minR : Nat) (σ : Nat → Nat)
    (r : LogRec) : Bool :=
  if r.lsn < minR then false
  else if ¬ r.isDataRec then false
  else
    match dptLookup dpt r.pageID with
    | none => false
    | some rlsn =>
      if r.lsn < rlsn then false
      else if σ r.pageID ≥ r.lsn then false
      else true

/-- Page-LSN effect of the engine's redo callback `Engine.applyRedo`
(src/internal/storage/disk_test.go lines 374–464): the touched page's
LSN becomes the record's LSN; for an Update whose old location (decoded
from `RowID` as `uint32(RowID >> 16)` / `uint16(RowID)`) differs from the
new one, the old page's LSN is set as well. -/
def applyRedoLSN (σ : Nat → Nat) (r : LogRec) : Nat → Nat :=
  let oldPage := (r.rowID / 65536) % 2 ^ 32
  let σ1 : Nat → Nat := fun p => if p = r.pageID then r.lsn else σ p
  if r.kind = .update ∧ (oldPage ≠ r.pageID ∨ r.rowID % 65536 ≠ r.slotNum) then
    fun p => if p = oldPage then r.lsn else σ1 p
  else σ1

/-- Redo scan loop of `redoPhase`: for each record, the page-LSN view at
examination time and whether the redo callback is invoked; also returns
the final page-LSN view. -/
def redoScan (dpt : List (Nat × Nat)) (minR : Nat) :
    (Nat → Nat) → List LogRec →
      List (LogRec × (Nat → Nat) × Bool) × (Nat → Nat)
  | σ, [] => ([], σ)
  | σ, r :: rs =>
    let b := redoDecision dpt minR σ r
    let σ2 := if b then applyRedoLSN σ r else σ
    let rest := redoScan dpt minR σ2 rs
    ((r, σ, b) :: rest.1, rest.2)

/-- Embedding of `RecoveryManager.redoPhase` (recovery.go lines 178–251):
an empty DPT returns immediately; otherwise the log is scanned from the
DPT's minimum RecLSN.  Returns the records for which the redo callback
is invoked. -/
def redoApplied (σ : Nat → Nat) (dpt : List (Nat × Nat))
    (records : List LogRec) : List LogRec :=
  if dpt = [] then []
  else
    (redoScan dpt (minRecLSN dpt) σ records).1.filterMap
      (fun x => if x.2.2 then some x.1 else none)

/-- Page-LSN view left behind by a full redo pass. -/
def redoFinal (σ : Nat → Nat) (dpt : List (Nat × Nat))
    (records : List LogRec) : Nat → Nat :=
  if dpt = [] then σ else (redoScan dpt (minRecLSN dpt) σ records).2

/-- Strictly increasing LSNs along the log, as the WAL writer guarantees
(spec §8: every record's LSN exceeds every preceding record's LSN). -/
def lsnSorted : List LogRec → Bool
  | [] => true
  | r :: rs => rs.all (fun x => decide (r.lsn < x.lsn)) && lsnSorted rs

/-- Big-endian byte image of `binary.BigEndian.PutUint64`: the eight
bytes of `u`, most significant first. -/
def bytesBE8 (u : Nat) : List Nat :=
  [u / 2 ^ 56 % 256, u / 2 ^ 48 % 256, u / 2 ^ 40 % 256, u / 2 ^ 32 % 256,
   u / 2 ^ 24 % 256, u / 2 ^ 16 % 256, u / 2 ^ 8 % 256, u % 256]

/-- Embedding of `EncodeKey` for INT values
(src/internal/index/btree_test.go lines 274–289): the signed 64-bit value
becomes uint64 by two's complement, the sign bit is flipped with
`^ (1 << 63)`, and the result is stored big-endian in the first eight
bytes of a zeroed `keySize`-byte key. -/
def encodeKeyInt (v : Int) (keySize : Nat) : List Nat :=
  bytesBE8 ((v % 2 ^ 64).toNat ^^^ 2 ^ 63) ++ List.replicate (keySize - 8) 0

/-- Strict lexicographic byte order of `bytes.Compare`. -/
def byteLexLt : List Nat → List Nat → Bool
  | [], [] => false
  | [], _ :: _ => true
  | _ :: _, [] => false
  | x :: xs, y :: ys =>
    if x < y then true else if y < x then false else byteLexLt xs ys

/-- Recursive big-endian digit expansion used to reason about
`bytesBE8`. -/
def bytesBEacc : Nat → Nat → List Nat
  | 0, _ => []
  | n + 1, u => (u / 2 ^ (8 * n)) :: bytesBEacc n (u % 2 ^ (8 * n))

end MiniDB

namespace MiniDB

/-- C1: a TxnID `t` is visible to snapshot `S` iff `t ≠ 0`, `t < S.xmax`
and `t` is not in `S`'s active set; and a tuple is visible iff its `xmin`
is visible and (`xmax = 0` or `xmax` is not visible) — exactly the
predicate computed by `Snapshot.IsVisible` / `isTxnVisible`. -/
theorem c1_visibility_algebra (s : Snapshot) (t : Tuple) :
    (∀ x : Nat, s.isTxnVisible x = true ↔
      x ≠ invalidTxnID ∧ x < s.xmax ∧ x ∉ s.activeTxns)
    ∧ (s.isVisible t = true ↔
      s.isTxnVisible t.xmin = true ∧
        (t.xmax = invalidTxnID ∨ s.isTxnVisible t.xmax = false)) := by
  constructor
  · intro x
    simp only [Snapshot.isTxnVisible]
    split_ifs with h0 h1 h2
    · simp [h0]
    · simp only [Bool.false_eq_true, false_iff]
      intro h
      exact absurd h.2.1 (by omega)
    · simp only [Bool.false_eq_true, false_iff]
      intro h
      exact h.2.2 (by simpa using h2)
    · simp only [true_iff]
      exact ⟨h0, by omega, fun hm => h2 (by simpa using hm)⟩
  · simp only [Snapshot.isVisible]
    by_cases h0 : s.isTxnVisible t.xmin
    · by_cases h1 : t.xmax = invalidTxnID
      · simp [h0, h1]
      · by_cases h2 : s.isTxnVisible t.xmax <;> simp [h0, h1, h2]
    · simp only [h0, not_false_eq_true, if_pos, Bool.false_eq_true, false_iff]
      intro h
      exact h.1

/-- C6 counterexample: on a fresh manager, `Begin` hands out id 2 and a
snapshot whose `xmax` is also 2 — the transaction's own id is not below
its snapshot's `xmax`, and a tuple the transaction itself inserts
(`xmin` = own id, `xmax` = 0) is not visible to its own snapshot. -/
theorem c6_counterexample :
    ((Manager.begin { nextTxnID := 1, activeTxns := [] }).1.id = 2
      ∧ (Manager.begin { nextTxnID := 1, activeTxns := [] }).1.snapshot.xmax = 2)
    ∧ ¬ ((Manager.begin { nextTxnID := 1, activeTxns := [] }).1.id
        < (Manager.begin { nextTxnID := 1, activeTxns := [] }).1.snapshot.xmax)
    ∧ (Manager.begin { nextTxnID := 1, activeTxns := [] }).1.snapshot.isVisible
        { xmin := 2, xmax := 0, cid := 0, tableID := 0, rowID := 0, data := [] }
        = false := by
  decide

/-- C6 amended: the snapshot captured by `Manager.Begin` has `xmax` equal
to the post-increment value of the id counter, which is the beginning
transaction's own TxnID; consequently the transaction's own id is not
strictly below its snapshot's `xmax`, and a tuple it inserts with
`xmin` = its own id and `xmax` = 0 is not visible to its own snapshot. -/
theorem c6_begin_snapshot_xmax (m : Manager) :
    (m.begin.1.snapshot.xmax = m.begin.1.id
      ∧ m.begin.1.id = m.nextTxnID + 1)
    ∧ ¬ (m.begin.1.id < m.begin.1.snapshot.xmax)
    ∧ ∀ c tid rid d,
        m.begin.1.snapshot.isVisible
          { xmin := m.begin.1.id, xmax := invalidTxnID,
            cid := c, tableID := tid, rowID := rid, data := d } = false := by
  refine ⟨⟨rfl, rfl⟩, by simp [Manager.begin, Manager.createSnapshotLocked], ?_⟩
  intro c tid rid d
  simp [Manager.begin, Manager.createSnapshotLocked, Snapshot.isVisible,
    Snapshot.isTxnVisible, invalidTxnID]

/-- C3: the WAL rule claims that whenever the buffer pool writes a dirty
page to disk its pageLSN is at most the WAL's flushed-LSN.  Evaluating
the embedded `BufferPool.FlushPage` and `BufferPool.evictOne` on a state
holding a dirty unpinned page with pageLSN 5 while flushed-LSN is 0 shows
both paths write the page with pageLSN 5 > flushed-LSN 0 and leave the
WAL untouched: neither calls `force(pageLSN)`. -/
theorem c3_wal_rule_violated :
    (WalSys.flushPage
        { flushedLSN := 0,
          cache := [{ id := 1, lsn := 5, dirty := true, pinCount := 0 }],
          diskWrites := [] } 1).diskWrites = [(1, 5)]
    ∧ (WalSys.flushPage
        { flushedLSN := 0,
          cache := [{ id := 1, lsn := 5, dirty := true, pinCount := 0 }],
          diskWrites := [] } 1).flushedLSN = 0
    ∧ (WalSys.evictOne
        { flushedLSN := 0,
          cache := [{ id := 1, lsn := 5, dirty := true, pinCount := 0 }],
          diskWrites := [] }).map WalSys.diskWrites = some [(1, 5)]
    ∧ (WalSys.evictOne
        { flushedLSN := 0,
          cache := [{ id := 1, lsn := 5, dirty := true, pinCount := 0 }],
          diskWrites := [] }).map WalSys.flushedLSN = some 0
    ∧ ¬ (5 ≤ 0) := by
  decide

/-- C4: evaluating the embedded `executeUpdate` heap path at a concrete
visible tuple shows the claim's half (a) is not performed by the code:
after the update the old version at (page 0, slot 0) still carries
`xmax` = 0 — the writer's TxnID 5 was set only on the in-memory scan
copy and never written back — while half (b) did insert the new version
`xmin` = 5, `xmax` = 0 at the fresh slot 1. -/
theorem c4_update_misses_writeback :
    ((executeUpdateStep
        { pages := [{ id := 0,
                      slots := [some { xmin := 1, xmax := 0, cid := 0,
                                       tableID := 7, rowID := 0, data := [9] }],
                      freeOfs := 28, freeEnd := 4059,
                      nextPageID := invalidPageID, lsn := 0 }],
          numPages := 1 }
        { tableID := 7, firstPage := 0, lastPage := 0 }
        { xmin := 1, xmax := 0, cid := 0, tableID := 7, rowID := 0, data := [9] }
        5 1 [8]).map
      (fun r => ((r.1.find 0).map (fun pg =>
        (pg.getTupleAt 0, pg.getTupleAt 1)))))
    = some (some
        (some { xmin := 1, xmax := 0, cid := 0, tableID := 7, rowID := 0, data := [9] },
         some { xmin := 5, xmax := 0, cid := 1, tableID := 7, rowID := 0, data := [8] }))
    ∧ (0 : Nat) ≠ 5 := by
  decide

/-- C9: evaluating the embedded `TableHeap.Insert` on a heap whose last
page 0 is full shows that the newly allocated page 1 becomes `lastPage`
but page 0's `NextPageID` header field is left at `InvalidPageID` — the
source never links the previous last page to the new one ("For
simplicity, we just track first/last"), so the claimed chain invariant is
not established. -/
theorem c9_insert_does_not_link_pages :
    ((THeap.insert
        { pages := [{ id := 0, slots := [], freeOfs := 28, freeEnd := 33,
                      nextPageID := invalidPageID, lsn := 0 }],
          numPages := 1 }
        { tableID := 1, firstPage := 0, lastPage := 0 }
        { xmin := 1, xmax := 0, cid := 0, tableID := 1, rowID := 0, data := [] }).map
      (fun r => (r.2.1.lastPage, r.2.2.1, (r.1.find 0).map HPage.nextPageID)))
    = some (1, 1, some invalidPageID)
    ∧ invalidPageID ≠ 1 := by
  decide

/-- C5: a scanned tuple is physically tombstoned by the embedded
`Engine.Vacuum` iff its `xmax` is set, below the global xmin, and the
`xmax` transaction is in the known-committed set; and a tuple whose
`xmax` transaction is rolled back (hence never recorded as committed) is
left untouched. -/
theorem c5_vacuum_reclaim (m : VMgr) (pg : HPage) (s : Nat) (t : Tuple)
    (hs : pg.getTupleAt s = some t) :
    ((m.vacuumPage pg).getTupleAt s = none ↔
      t.xmax ≠ invalidTxnID ∧ t.xmax < m.globalXmin ∧
        m.isTxnCommitted t.xmax = true)
    ∧ (∀ txnID, m.isTxnCommitted t.xmax = false →
        ((m.rollback txnID).vacuumPage pg).getTupleAt s = some t) := by
  have hsome : pg.slots[s]? = some (some t) := by
    unfold HPage.getTupleAt at hs
    cases h : pg.slots[s]? with
    | none => simp [h] at hs
    | some o => simp [h] at hs; rw [hs]
  have hmap : ∀ mm : VMgr, (mm.vacuumPage pg).getTupleAt s
      = if mm.reclaimable t then none else some t := by
    intro mm
    unfold VMgr.vacuumPage HPage.getTupleAt
    simp [List.getElem?_map, hsome]
  have hrecl : ∀ mm : VMgr, (mm.reclaimable t = true ↔
      t.xmax ≠ invalidTxnID ∧ t.xmax < mm.globalXmin ∧
        mm.isTxnCommitted t.xmax = true) := by
    intro mm
    unfold VMgr.reclaimable
    simp [Bool.and_eq_true, bne_iff_ne, and_assoc]
  constructor
  · rw [hmap m]
    by_cases hr : m.reclaimable t = true
    · rw [if_pos hr]
      exact iff_of_true rfl ((hrecl m).mp hr)
    · rw [if_neg hr]
      exact iff_of_false (by simp) (fun hc => hr ((hrecl m).mpr hc))
  · intro txnID hnc
    have hr2 : ¬ ((m.rollback txnID).reclaimable t = true) := by
      intro hr
      have h3 := ((hrecl (m.rollback txnID)).mp hr).2.2
      have h4 : m.isTxnCommitted t.xmax = true := by
        unfold VMgr.isTxnCommitted at h3 ⊢
        exact h3
      rw [h4] at hnc
      simp at hnc
    rw [hmap (m.rollback txnID), if_neg hr2]

/-- Witness for `c5_vacuum_reclaim`: a tuple deleted by committed
transaction 3 (global xmin 10) is reclaimed, and a tuple whose deleter 4
was rolled back is preserved. -/
theorem c5_vacuum_reclaim_witness :
    ((VMgr.vacuumPage { activeTxns := [10], committedTxns := [3] }
        { id := 0,
          slots := [some { xmin := 1, xmax := 3, cid := 0, tableID := 1,
                           rowID := 0, data := [] }],
          freeOfs := 28, freeEnd := 4060,
          nextPageID := invalidPageID, lsn := 0 }).getTupleAt 0 = none ↔
      (3 : Nat) ≠ invalidTxnID ∧
        (3 : Nat) < VMgr.globalXmin { activeTxns := [10], committedTxns := [3] } ∧
        VMgr.isTxnCommitted { activeTxns := [10], committedTxns := [3] } 3 = true)
    ∧ ((VMgr.vacuumPage
          (VMgr.rollback { activeTxns := [10], committedTxns := [] } 4)
          { id := 0,
            slots := [some { xmin := 1, xmax := 4, cid := 0, tableID := 1,
                             rowID := 0, data := [] }],
            freeOfs := 28, freeEnd := 4060,
            nextPageID := invalidPageID, lsn := 0 }).getTupleAt 0
        = some { xmin := 1, xmax := 4, cid := 0, tableID := 1,
                 rowID := 0, data := [] }) :=
  ⟨(c5_vacuum_reclaim { activeTxns := [10], committedTxns := [3] }
      { id := 0,
        slots := [some { xmin := 1, xmax := 3, cid := 0, tableID := 1,
                         rowID := 0, data := [] }],
        freeOfs := 28, freeEnd := 4060,
        nextPageID := invalidPageID, lsn := 0 }
      0
      { xmin := 1, xmax := 3, cid := 0, tableID := 1, rowID := 0, data := [] }
      (by decide)).1,
   (c5_vacuum_reclaim { activeTxns := [10], committedTxns := [] }
      { id := 0,
        slots := [some { xmin := 1, xmax := 4, cid := 0, tableID := 1,
                         rowID := 0, data := [] }],
        freeOfs := 28, freeEnd := 4060,
        nextPageID := invalidPageID, lsn := 0 }
      0
      { xmin := 1, xmax := 4, cid := 0, tableID := 1, rowID := 0, data := [] }
      (by decide)).2
      4 (by decide)⟩

/-- C7 counterexample: inserting one byte into a fresh page leaves
`FreeSpaceOffset` at 28 — `Page.InsertTuple` never updates it, so the
claim's "free-space-begin is increased by 4" is false (and, the same
insertion having placed its payload at 4095, the slot-directory entry for
slot 0 written at bytes 4092–4095 has already overwritten it). -/
theorem c7_counterexample :
    ((BPage.empty.insertTuple [170]).map (fun r => r.2.freeOfs)) = some 28
    ∧ (28 : Nat) ≠ 32
    ∧ ((BPage.empty.insertTuple [170]).map (fun r => r.2.data 4095)) = some 0 := by
  decide

/-- C7 amended: slotted-page insert succeeds iff
`free-end − free-begin − 4 ≥ |data|` (otherwise it fails with PageFull
and, returning before any mutation, leaves the page unchanged); on
success the payload is copied to `free-end − |data|` (its bytes at
offsets below the new slot-directory entry at `4096 − 4·(slotCount+1)`
are intact in the final page image), the appended slot records
`(free-end − |data|, |data|)`, the slot count increments,
`free-space-end` decreases by `|data|`, and `free-space-begin` is left
unchanged (it is not increased by 4; the 4-byte slot cost appears only in
the free-space check). -/
theorem c7_insert_spec (p : BPage) (src : List Nat)
    (hEnd : p.freeEnd ≤ 4096) :
    (p.insertTuple src = none ↔ p.freeSpace < (src.length : Int))
    ∧ (∀ s p', p.insertTuple src = some (s, p') →
        s = p.slotCount
        ∧ p'.freeEnd = p.freeEnd - src.length
        ∧ p'.slotCount = p.slotCount + 1
        ∧ p'.freeOfs = p.freeOfs
        ∧ p'.getSlot s = (p.freeEnd - src.length, src.length)
        ∧ ∀ k, k < src.length →
            p.freeEnd - src.length + k < 4096 - (p.slotCount + 1) * 4 →
            p'.data (p.freeEnd - src.length + k) = src.getD k 0) := by
  have hlen : p.insertTuple src ≠ none → src.length ≤ 4092 := by
    intro hne
    unfold BPage.insertTuple at hne
    by_cases hg : p.freeSpace < (src.length : Int)
    · simp [hg] at hne
    · unfold BPage.freeSpace at hg
      omega
  constructor
  · unfold BPage.insertTuple
    by_cases hg : p.freeSpace < (src.length : Int) <;> simp [hg]
  · intro s p' hins
    have hl : src.length ≤ 4092 := hlen (by rw [hins]; simp)
    unfold BPage.insertTuple at hins
    by_cases hg : p.freeSpace < (src.length : Int)
    · simp [hg] at hins
    · rw [if_neg hg] at hins
      have hpair := Option.some.inj hins
      have hs : s = p.slotCount := (congrArg Prod.fst hpair).symm
      have hp' := (congrArg Prod.snd hpair).symm
      subst hs
      subst hp'
      refine ⟨rfl, rfl, rfl, rfl, ?_, ?_⟩
      · unfold BPage.getSlot BPage.setSlot readLE16 writeLE16
        have h1 : 4096 - (p.slotCount + 1) * 4 ≠ 4096 - (p.slotCount + 1) * 4 + 2 := by omega
        have h2 : 4096 - (p.slotCount + 1) * 4 ≠ 4096 - (p.slotCount + 1) * 4 + 2 + 1 := by omega
        have h3 : 4096 - (p.slotCount + 1) * 4 + 1 ≠ 4096 - (p.slotCount + 1) * 4 + 2 := by omega
        have h4 : 4096 - (p.slotCount + 1) * 4 + 1 ≠ 4096 - (p.slotCount + 1) * 4 + 2 + 1 := by omega
        have h5 : 4096 - (p.slotCount + 1) * 4 + 1 ≠ 4096 - (p.slotCount + 1) * 4 := by omega
        have h6 : 4096 - (p.slotCount + 1) * 4 + 2 + 1 ≠ 4096 - (p.slotCount + 1) * 4 + 2 := by
          omega
        simp only [h1, h2, h3, h4, h5, h6, if_pos, if_neg, ite_true, ite_false, if_true,
          if_false, reduceIte, Prod.mk.injEq]
        constructor <;> omega
      · intro k hk hlt
        show (writeLE16 (writeLE16 (copyBytes p.data (p.freeEnd - src.length) src)
            (4096 - (p.slotCount + 1) * 4) (p.freeEnd - src.length))
            (4096 - (p.slotCount + 1) * 4 + 2) src.length)
            (p.freeEnd - src.length + k) = src.getD k 0
        unfold writeLE16 copyBytes
        have hne1 : p.freeEnd - src.length + k ≠ 4096 - (p.slotCount + 1) * 4 + 2 := by omega
        have hne2 : p.freeEnd - src.length + k ≠ 4096 - (p.slotCount + 1) * 4 + 2 + 1 := by omega
        have hne3 : p.freeEnd - src.length + k ≠ 4096 - (p.slotCount + 1) * 4 := by omega
        have hne4 : p.freeEnd - src.length + k ≠ 4096 - (p.slotCount + 1) * 4 + 1 := by omega
        rw [if_neg hne1, if_neg hne2, if_neg hne3, if_neg hne4,
          if_pos ⟨Nat.le_add_right _ _, by omega⟩]
        congr 1
        omega

/-- Witness for `c7_insert_spec`: instantiation at the fresh page and a
5-byte payload. -/
theorem c7_insert_spec_witness :
    (BPage.empty.insertTuple [1, 2, 3, 4, 5] = none ↔
      BPage.empty.freeSpace < ((5 : Nat) : Int))
    ∧ (∀ s p', BPage.empty.insertTuple [1, 2, 3, 4, 5] = some (s, p') →
        s = BPage.empty.slotCount
        ∧ p'.freeEnd = BPage.empty.freeEnd - 5
        ∧ p'.slotCount = BPage.empty.slotCount + 1
        ∧ p'.freeOfs = BPage.empty.freeOfs
        ∧ p'.getSlot s = (BPage.empty.freeEnd - 5, 5)
        ∧ ∀ k, k < 5 →
            BPage.empty.freeEnd - 5 + k < 4096 - (BPage.empty.slotCount + 1) * 4 →
            p'.data (BPage.empty.freeEnd - 5 + k) = [1, 2, 3, 4, 5].getD k 0) :=
  c7_insert_spec BPage.empty [1, 2, 3, 4, 5] (by decide)

/-- Helper: the running fold of `redoPhase`'s minimum computation never
exceeds its accumulator. -/
theorem foldlMin_le_acc (l : List (Nat × Nat)) :
    ∀ acc : Nat, l.foldl (fun a x => if x.2 < a then x.2 else a) acc ≤ acc := by
  induction l with
  | nil => intro acc; simp
  | cons hd tl ih =>
    intro acc
    simp only [List.foldl_cons]
    by_cases h : hd.2 < acc
    · rw [if_pos h]; exact le_trans (ih hd.2) (by omega)
    · rw [if_neg h]; exact ih acc

/-- Helper: the fold of `redoPhase`'s minimum computation is bounded by
every member's RecLSN. -/
theorem foldlMin_le_mem (l : List (Nat × Nat)) :
    ∀ (acc : Nat) (e : Nat × Nat), e ∈ l →
      l.foldl (fun a x => if x.2 < a then x.2 else a) acc ≤ e.2 := by
  induction l with
  | nil => intro acc e he; cases he
  | cons hd tl ih =>
    intro acc e he
    simp only [List.foldl_cons]
    rcases List.mem_cons.mp he with heq | hmem
    · subst heq
      refine le_trans (foldlMin_le_acc tl _) ?_
      by_cases h : e.2 < acc
      · rw [if_pos h]
      · rw [if_neg h]; omega
    · exact ih _ e hmem

/-- Helper: a successful DPT lookup is bounded below by `minRecLSN`, so
the scan-start filter of `redoPhase` never skips a record that passes
the DPT conditions. -/
theorem minRecLSN_le_of_lookup (dpt : List (Nat × Nat)) (pid rlsn : Nat)
    (h : dptLookup dpt pid = some rlsn) : minRecLSN dpt ≤ rlsn := by
  unfold dptLookup at h
  cases hf : dpt.find? (fun e => e.1 = pid) with
  | none => rw [hf] at h; simp at h
  | some e =>
    rw [hf] at h
    simp only [Option.some.injEq] at h
    have hmem := List.mem_of_find?_eq_some hf
    rw [← h]
    exact foldlMin_le_mem dpt _ e hmem

/-- Helper: characterization of one redo skip-chain decision by the
claim's three conditions. -/
theorem redoDecision_iff (dpt : List (Nat × Nat)) (σ : Nat → Nat) (r : LogRec) :
    redoDecision dpt (minRecLSN dpt) σ r = true ↔
      (r.isDataRec = true ∧ ∃ rlsn, dptLookup dpt r.pageID = some rlsn ∧
        rlsn ≤ r.lsn ∧ σ r.pageID < r.lsn) := by
  constructor
  · intro h
    unfold redoDecision at h
    split at h
    · exact absurd h (by simp)
    next h1 =>
      split at h
      · exact absurd h (by simp)
      next h2 =>
        split at h
        next hf => exact absurd h (by simp)
        next rlsn hf =>
          split at h
          · exact absurd h (by simp)
          next h3 =>
            split at h
            · exact absurd h (by simp)
            next h4 =>
              exact ⟨by simpa using h2, rlsn, hf, by omega, by omega⟩
  · rintro ⟨hdata, rlsn, hf, hle, hlt⟩
    have hmin := minRecLSN_le_of_lookup dpt r.pageID rlsn hf
    unfold redoDecision
    rw [if_neg (show ¬ r.lsn < minRecLSN dpt by omega),
      if_neg (show ¬¬ (r.isDataRec = true) by simp [hdata]), hf]
    show (if r.lsn < rlsn then false
      else if σ r.pageID ≥ r.lsn then false else true) = true
    rw [if_neg (by omega), if_neg (by omega)]

/-- Helper: part (a) of the redo characterization over the whole scan. -/
theorem redoScan_decisions (dpt : List (Nat × Nat)) (records : List LogRec) :
    ∀ σ : Nat → Nat, ∀ x ∈ (redoScan dpt (minRecLSN dpt) σ records).1,
      x.2.2 = true ↔
        (x.1.isDataRec = true ∧ ∃ rlsn,
          dptLookup dpt x.1.pageID = some rlsn ∧ rlsn ≤ x.1.lsn ∧
            x.2.1 x.1.pageID < x.1.lsn) := by
  induction records with
  | nil => intro σ x hx; simp [redoScan] at hx
  | cons r rs ih =>
    intro σ x hx
    simp only [redoScan, List.mem_cons] at hx
    rcases hx with hx | hx
    · subst hx
      exact redoDecision_iff dpt σ r
    · exact ih _ x hx

/-- Helper: a redo application writes either the untouched page-LSN or
the record's own LSN. -/
theorem applyRedoLSN_cases (σ : Nat → Nat) (r : LogRec) (p : Nat) :
    applyRedoLSN σ r p = σ p ∨ applyRedoLSN σ r p = r.lsn := by
  simp only [applyRedoLSN]
  by_cases hc : r.kind = .update ∧
      ((r.rowID / 65536) % 2 ^ 32 ≠ r.pageID ∨ r.rowID % 65536 ≠ r.slotNum)
  · rw [if_pos hc]
    by_cases h1 : p = (r.rowID / 65536) % 2 ^ 32
    · rw [if_pos h1]; right; rfl
    · rw [if_neg h1]
      by_cases h2 : p = r.pageID
      · rw [if_pos h2]; right; rfl
      · rw [if_neg h2]; left; rfl
  · rw [if_neg hc]
    by_cases h2 : p = r.pageID
    · rw [if_pos h2]; right; rfl
    · rw [if_neg h2]; left; rfl

/-- Helper: an applied record leaves its own LSN on its own page. -/
theorem applyRedoLSN_self (σ : Nat → Nat) (r : LogRec) :
    applyRedoLSN σ r r.pageID = r.lsn := by
  simp only [applyRedoLSN]
  by_cases hc : r.kind = .update ∧
      ((r.rowID / 65536) % 2 ^ 32 ≠ r.pageID ∨ r.rowID % 65536 ≠ r.slotNum)
  · rw [if_pos hc]
    by_cases h1 : r.pageID = (r.rowID / 65536) % 2 ^ 32
    · rw [if_pos h1]
    · rw [if_neg h1, if_pos rfl]
  · rw [if_neg hc, if_pos rfl]

/-- Helper: the final page-LSN view of a scan holds, at every page,
either the initial value or an LSN of one of the scanned records. -/
theorem redoScan_final_cases (dpt : List (Nat × Nat)) (minR : Nat) :
    ∀ (records : List LogRec) (σ : Nat → Nat) (p : Nat),
      (redoScan dpt minR σ records).2 p = σ p ∨
        ∃ r ∈ records, (redoScan dpt minR σ records).2 p = r.lsn := by
  intro records
  induction records with
  | nil => intro σ p; left; simp [redoScan]
  | cons r rs ih =>
    intro σ p
    simp only [redoScan, List.mem_cons]
    rcases ih (if redoDecision dpt minR σ r then applyRedoLSN σ r else σ) p
      with h | ⟨r2, hr2, h⟩
    · by_cases hb : redoDecision dpt minR σ r = true
      · rw [if_pos hb] at h ⊢
        rcases applyRedoLSN_cases σ r p with h2 | h2
        · left; rw [h, h2]
        · right; exact ⟨r, Or.inl rfl, by rw [h, h2]⟩
      · rw [if_neg hb] at h ⊢
        left; exact h
    · by_cases hb : redoDecision dpt minR σ r = true
      · rw [if_pos hb] at h ⊢
        right; exact ⟨r2, Or.inr hr2, h⟩
      · rw [if_neg hb] at h ⊢
        right; exact ⟨r2, Or.inr hr2, h⟩

/-- Helper: after a full scan over a strictly LSN-increasing log, every
record that is data-mutating and passes the DPT conditions has its page's
final LSN at or above its own LSN. -/
theorem redoScan_final_ge (dpt : List (Nat × Nat)) :
    ∀ (records : List LogRec) (σ : Nat → Nat),
      lsnSorted records = true →
      ∀ r ∈ records, r.isDataRec = true →
        ∀ rlsn, dptLookup dpt r.pageID = some rlsn → rlsn ≤ r.lsn →
          r.lsn ≤ (redoScan dpt (minRecLSN dpt) σ records).2 r.pageID := by
  intro records
  induction records with
  | nil => intro σ _ r hr; cases hr
  | cons hd tl ih =>
    intro σ hsort r hr hdata rlsn hdpt hle
    have hparts : (tl.all fun x => decide (hd.lsn < x.lsn)) = true
        ∧ lsnSorted tl = true := by
      simpa [lsnSorted, Bool.and_eq_true] using hsort
    have hall : ∀ x ∈ tl, hd.lsn < x.lsn := by
      intro x hx
      simpa using List.all_eq_true.mp hparts.1 x hx
    have hsort2 : lsnSorted tl = true := hparts.2
    simp only [redoScan]
    rcases List.mem_cons.mp hr with heq | hmem
    · subst heq
      have hσ2 : r.lsn ≤
          (if redoDecision dpt (minRecLSN dpt) σ r then applyRedoLSN σ r else σ)
            r.pageID := by
        by_cases hb : redoDecision dpt (minRecLSN dpt) σ r = true
        · rw [if_pos hb, applyRedoLSN_self]
        · have hnl : ¬ (σ r.pageID < r.lsn) := fun hlt =>
            hb ((redoDecision_iff dpt σ r).mpr ⟨hdata, rlsn, hdpt, hle, hlt⟩)
          rw [if_neg hb]
          omega
      rcases redoScan_final_cases dpt (minRecLSN dpt) tl
          (if redoDecision dpt (minRecLSN dpt) σ r then applyRedoLSN σ r else σ)
          r.pageID with h | ⟨r2, hr2, h⟩
      · rw [h]; exact hσ2
      · rw [h]; exact Nat.le_of_lt (hall r2 hr2)
    · exact ih _ hsort2 r hmem hdata rlsn hdpt hle

/-- Helper: a scan in which every record's decision at the (then
unchanging) page-LSN view is negative invokes no redo callback. -/
theorem redoScan_all_false (dpt : List (Nat × Nat)) (minR : Nat) :
    ∀ (records : List LogRec) (τ : Nat → Nat),
      (∀ r ∈ records, redoDecision dpt minR τ r = false) →
      (redoScan dpt minR τ records).1.filterMap
        (fun x => if x.2.2 then some x.1 else none) = [] := by
  intro records
  induction records with
  | nil => intro τ _; simp [redoScan]
  | cons r rs ih =>
    intro τ h
    have hr := h r (List.mem_cons_self r rs)
    simp only [redoScan, hr, Bool.false_eq_true, if_neg, ite_false, reduceIte,
      List.filterMap_cons]
    exact ih τ (fun x hx => h x (List.mem_cons_of_mem _ hx))

/-- C2: in the ARIES redo phase, a record's redo callback is invoked iff
the record is data-mutating, its page is in the DPT, its LSN is at least
the page's RecLSN, and its LSN exceeds the page's current page-LSN at the
moment the record is examined (the scan-start filter at the DPT's minimum
RecLSN never skips a record satisfying these conditions); and over a
strictly LSN-increasing log, a second redo pass starting from the
page-LSN state the first pass left behind invokes no callback at all. -/
theorem c2_redo_characterization (σ : Nat → Nat) (dpt : List (Nat × Nat))
    (records : List LogRec) :
    (∀ x ∈ (redoScan dpt (minRecLSN dpt) σ records).1,
        x.2.2 = true ↔
          (x.1.isDataRec = true ∧ ∃ rlsn,
            dptLookup dpt x.1.pageID = some rlsn ∧ rlsn ≤ x.1.lsn ∧
              x.2.1 x.1.pageID < x.1.lsn))
    ∧ (lsnSorted records = true →
        redoApplied (redoFinal σ dpt records) dpt records = []) := by
  constructor
  · exact redoScan_decisions dpt records σ
  · intro hsort
    unfold redoApplied redoFinal
    by_cases hdpt : dpt = []
    · simp [hdpt]
    · rw [if_neg hdpt, if_neg hdpt]
      apply redoScan_all_false
      intro r hr
      by_contra htrue
      rw [Bool.not_eq_false] at htrue
      obtain ⟨hdata, rlsn, hdptl, hle, hlt⟩ := (redoDecision_iff dpt _ r).mp htrue
      have hge := redoScan_final_ge dpt records σ hsort r hr hdata rlsn hdptl hle
      omega

/-- Witness for `c2_redo_characterization`: a two-record strictly
increasing log over DPT {page 1 ↦ 5}; the second pass applies nothing. -/
theorem c2_redo_characterization_witness :
    redoApplied
      (redoFinal (fun _ => 0) [(1, 5)]
        [{ kind := .insert, lsn := 5, txnID := 1, pageID := 1, slotNum := 0, rowID := 0 },
         { kind := .insert, lsn := 6, txnID := 1, pageID := 1, slotNum := 1, rowID := 0 }])
      [(1, 5)]
      [{ kind := .insert, lsn := 5, txnID := 1, pageID := 1, slotNum := 0, rowID := 0 },
       { kind := .insert, lsn := 6, txnID := 1, pageID := 1, slotNum := 1, rowID := 0 }]
      = [] :=
  (c2_redo_characterization (fun _ => 0) [(1, 5)]
    [{ kind := .insert, lsn := 5, txnID := 1, pageID := 1, slotNum := 0, rowID := 0 },
     { kind := .insert, lsn := 6, txnID := 1, pageID := 1, slotNum := 1, rowID := 0 }]).2
    (by decide)

/-- Helper: xor with a strictly higher power of two adds it. -/
theorem xor_two_pow_of_lt {a p : Nat} (h : a < 2 ^ p) :
    a ^^^ 2 ^ p = a + 2 ^ p := by
  apply Nat.eq_of_testBit_eq
  intro i
  rw [Nat.testBit_xor, Nat.testBit_two_pow]
  rcases Nat.lt_trichotomy i p with hi | hi | hi
  · rw [decide_eq_false (by omega : ¬ p = i), Bool.xor_false,
      show a + 2 ^ p = 2 ^ p + a from by omega,
      Nat.testBit_two_pow_add_gt hi]
  · subst hi
    rw [show a + 2 ^ i = 2 ^ i + a from by omega,
      Nat.testBit_two_pow_add_eq, Nat.testBit_lt_two_pow h]
    simp
  · have hip : a < 2 ^ i :=
      lt_of_lt_of_le h (Nat.pow_le_pow_right (by norm_num) (by omega))
    have hip2 : a + 2 ^ p < 2 ^ i := by
      have h2 : a + 2 ^ p < 2 ^ (p + 1) := by
        have : (2 : Nat) ^ (p + 1) = 2 ^ p + 2 ^ p := by ring
        omega
      exact lt_of_lt_of_le h2 (Nat.pow_le_pow_right (by norm_num) (by omega))
    rw [decide_eq_false (by omega : ¬ p = i), Bool.xor_false,
      Nat.testBit_lt_two_pow hip, Nat.testBit_lt_two_pow hip2]

/-- Helper: xor with a set power of two clears it. -/
theorem xor_two_pow_of_ge {y p : Nat} (h1 : 2 ^ p ≤ y) (h2 : y < 2 ^ (p + 1)) :
    y ^^^ 2 ^ p = y - 2 ^ p := by
  have hp : (2 : Nat) ^ (p + 1) = 2 ^ p + 2 ^ p := by ring
  have ha : y - 2 ^ p < 2 ^ p := by omega
  nth_rewrite 1 [show y = y - 2 ^ p + 2 ^ p from by omega]
  rw [← xor_two_pow_of_lt ha, Nat.xor_assoc, Nat.xor_self, Nat.xor_zero]

/-- Helper: for in-range signed 64-bit values, the uint64 conversion
followed by the sign-bit flip of `EncodeKey` is the order-preserving map
`v ↦ v + 2^63`. -/
theorem flip_sign_eq {v : Int} (h1 : -(2 ^ 63) ≤ v) (h2 : v < 2 ^ 63) :
    (v % 2 ^ 64).toNat ^^^ 2 ^ 63 = (v + 2 ^ 63).toNat := by
  by_cases hv : 0 ≤ v
  · have hmod : v % 2 ^ 64 = v := by omega
    rw [hmod]
    have hlt : v.toNat < 2 ^ 63 := by omega
    rw [xor_two_pow_of_lt hlt]
    omega
  · have hmod : v % 2 ^ 64 = v + 2 ^ 64 := by omega
    rw [hmod]
    have hge : 2 ^ 63 ≤ (v + 2 ^ 64).toNat := by omega
    have hlt2 : (v + 2 ^ 64).toNat < 2 ^ (63 + 1) := by
      have : (2 : Nat) ^ (63 + 1) = 2 ^ 64 := by norm_num
      omega
    rw [xor_two_pow_of_ge hge hlt2]
    omega

/-- Helper: big-endian digit expansion compares like the number. -/
theorem bytesBEacc_lt_of_lt :
    ∀ (n u w : Nat), u < 2 ^ (8 * n) → w < 2 ^ (8 * n) → u < w →
      byteLexLt (bytesBEacc n u) (bytesBEacc n w) = true := by
  intro n
  induction n with
  | zero =>
    intro u w hu hw huw
    simp only [Nat.mul_zero, pow_zero] at hu hw
    omega
  | succ n ih =>
    intro u w hu hw huw
    simp only [bytesBEacc, byteLexLt]
    have hBpos : 0 < 2 ^ (8 * n) := Nat.pos_pow_of_pos _ (by norm_num)
    have hqle : u / 2 ^ (8 * n) ≤ w / 2 ^ (8 * n) :=
      Nat.div_le_div_right (le_of_lt huw)
    by_cases hq : u / 2 ^ (8 * n) < w / 2 ^ (8 * n)
    · rw [if_pos hq]
    · have hqeq : u / 2 ^ (8 * n) = w / 2 ^ (8 * n) := by omega
      rw [if_neg hq, if_neg (by omega)]
      apply ih
      · exact Nat.mod_lt u hBpos
      · exact Nat.mod_lt w hBpos
      · have h1 := Nat.div_add_mod u (2 ^ (8 * n))
        have h2 := Nat.div_add_mod w (2 ^ (8 * n))
        rw [hqeq] at h1
        set k := 2 ^ (8 * n) * (w / 2 ^ (8 * n)) with hk
        set r1 := u % 2 ^ (8 * n) with hr1
        set r2 := w % 2 ^ (8 * n) with hr2
        omega

/-- Helper: `bytesBE8` agrees with the digit expansion below 2^64. -/
theorem bytesBE8_eq_acc {u : Nat} (h : u < 2 ^ 64) :
    bytesBE8 u = bytesBEacc 8 u := by
  simp only [bytesBE8, bytesBEacc, List.cons.injEq, and_true]
  norm_num
  repeat' apply And.intro
  all_goals omega

/-- Helper: a strict lexicographic comparison of equally long byte lists
survives appending arbitrary suffixes. -/
theorem byteLexLt_append {xs : List Nat} :
    ∀ {ys t1 t2 : List Nat}, xs.length = ys.length →
      byteLexLt xs ys = true → byteLexLt (xs ++ t1) (ys ++ t2) = true := by
  induction xs with
  | nil =>
    intro ys t1 t2 hlen h
    cases ys with
    | nil => simp [byteLexLt] at h
    | cons y ys => simp at hlen
  | cons x xs ih =>
    intro ys t1 t2 hlen h
    cases ys with
    | nil => simp at hlen
    | cons y ys =>
      simp only [byteLexLt, List.cons_append] at h ⊢
      by_cases h1 : x < y
      · rw [if_pos h1]
      · rw [if_neg h1] at h ⊢
        by_cases h2 : y < x
        · rw [if_pos h2] at h
          exact absurd h (by simp)
        · rw [if_neg h2] at h ⊢
          exact ih (by simpa using hlen) h

/-- C10: `EncodeKey` on INT preserves order under byte comparison — for
signed 64-bit values `a < b`, the encoded 64-byte key of `a` is strictly
lexicographically below that of `b` (sign-bit flip plus big-endian makes
the first eight bytes compare like `v + 2^63`; the zero tails are equal),
which is what makes scan-all return integer-ordered keys. -/
theorem c10_encode_key_order (a b : Int)
    (ha : -(2 ^ 63) ≤ a) (hb : b < 2 ^ 63) (hab : a < b) :
    byteLexLt (encodeKeyInt a 64) (encodeKeyInt b 64) = true := by
  have ha2 : a < 2 ^ 63 := lt_trans hab hb
  have hb2 : -(2 ^ 63) ≤ b := le_trans ha (le_of_lt hab)
  have hua := flip_sign_eq ha ha2
  have hub := flip_sign_eq hb2 hb
  unfold encodeKeyInt
  apply byteLexLt_append
  · simp [bytesBE8]
  · rw [hua, hub]
    have hba : (a + 2 ^ 63).toNat < 2 ^ 64 := by omega
    have hbb : (b + 2 ^ 63).toNat < 2 ^ 64 := by omega
    rw [bytesBE8_eq_acc hba, bytesBE8_eq_acc hbb]
    have h88 : (2 : Nat) ^ (8 * 8) = 2 ^ 64 := by norm_num
    apply bytesBEacc_lt_of_lt <;> omega

/-- Witness for `c10_encode_key_order`: the encoded key of −100 precedes
the encoded key of −1. -/
theorem c10_encode_key_order_witness :
    byteLexLt (encodeKeyInt (-100) 64) (encodeKeyInt (-1) 64) = true :=
  c10_encode_key_order (-100) (-1) (by decide) (by decide) (by decide)

/-- C8: evaluating the byte-exact page embedding shows the round-trip
fails: inserting the single byte 0xAA into a fresh page places the
payload at offset 4095, but the slot-directory entry for slot 0 is then
written at bytes 4092–4095 (slot `n` lives at `4096 − 4·(n+1)`, i.e. at
the same page tail the payload grows from), overwriting the payload;
`GetTuple` returns the clobbered byte 0, not 0xAA.  The repo's own test
`TestGetTuple` asserts the round-trip. -/
theorem c8_roundtrip_clobbered :
    ((BPage.empty.insertTuple [170]).map (fun r => r.2.getTuple r.1))
      = some (some [0])
    ∧ some (some [0]) ≠ some (some [170]) := by
  decide

end MiniDB
